import Mathlib

/-!
Shallow embedding of src/tassaudio.js (coordinated-reset vibrotactile WAV
generator).  Numbers that JavaScript computes in IEEE doubles are modelled
exactly over `ℚ`; sample buffers are lists of `ℤ`; `Math.random` and
`Math.sin` are modelled as oracle streams passed in as parameters (the
program is only run at concrete instances of those streams).
-/

namespace Tass

/-- The validated configuration object assembled by the CLI layer
(tassaudio.js lines 53-97). -/
structure Config where
  sampleFrequency : ℕ
  jitterPct : ℚ
  intro : ℕ
  targetDuration : ℕ
  maxAmp : ℕ
  useSideChannels : Bool
  sixChan : Bool

/-- The bounds enforced by the CLI validation code (lines 53-95). -/
def ValidConfig (cfg : Config) : Prop :=
  1000 ≤ cfg.sampleFrequency ∧ cfg.sampleFrequency ≤ 44100 ∧
  0 ≤ cfg.jitterPct ∧ cfg.jitterPct ≤ 47/200 ∧
  cfg.intro ≤ 30 ∧
  1 ≤ cfg.targetDuration ∧ cfg.targetDuration ≤ 14400 ∧
  1 ≤ cfg.maxAmp ∧ cfg.maxAmp ≤ 32767

/-- Base tone frequency, 250 Hz (line 115). -/
def fBase : ℕ := 250
/-- CR base frequency, 1.5 Hz (line 116). -/
def fCR : ℚ := 3/2
/-- Tone length 0.1 s (line 117). -/
def tTone : ℚ := 1/10
/-- Bars of tones in a phrase (line 118). -/
def nBlocksON : ℕ := 3
/-- Bars of silence in a phrase (line 119). -/
def nBlocksOFF : ℕ := 2
/-- `nFingers = sixChan ? 6 : 4` (line 120): number of output channels. -/
def nFingers (cfg : Config) : ℕ := if cfg.sixChan then 6 else 4
/-- Bar length in seconds, `1/fCR` (line 125). -/
def tCR : ℚ := 1 / fCR
/-- Tick length in seconds, `tCR/4` (line 126). -/
def tCR4 : ℚ := tCR / 4
/-- Maximum jitter `jitterPct * tCR4` (line 127). -/
def jMax (cfg : Config) : ℚ := cfg.jitterPct * tCR4

/-- `Math.round`: floor of x + 1/2 (JS semantics for the values produced
here). -/
def jsRound (q : ℚ) : ℤ := ⌊q + 1/2⌋

/-- `createSine` (lines 193-205).  `y[i] = Math.round(maxAmp*Math.sin(x))`
with `x` the phase accumulated over `i+1` steps; the floating-point value
`Math.sin(x)` at iteration `i` is abstracted as the oracle `sinTab i`
(bounded by 1 in absolute value wherever a theorem needs it).  The source
allocates `new Array(t*sampleFrequency)`, which throws unless the length is
integral, so runs only exist when the length argument is a whole number;
callers pass that whole number. -/
def createSine (sinTab : ℕ → ℚ) (maxAmp : ℕ) (len : ℕ) : List ℤ :=
  (List.range len).map fun i => jsRound ((maxAmp : ℚ) * sinTab i)

/-- The global `tone` table (line 133): `createSine(fBase, tTone,
sampleFrequency)`, of length `tTone*sampleFrequency = sampleFrequency/10`
(integral, or the program throws at startup). -/
def toneTable (cfg : Config) (sinTab : ℕ → ℚ) : List ℤ :=
  createSine sinTab cfg.maxAmp (cfg.sampleFrequency / 10)

/-- The 24 possible sequences of 4 fingers (lines 135-141). -/
def sequences : List (List ℕ) :=
  [[1,2,3,4],[1,2,4,3],[1,3,2,4],[1,3,4,2],
   [1,4,2,3],[1,4,3,2],[2,1,3,4],[2,1,4,3],
   [2,3,1,4],[2,3,4,1],[2,4,1,3],[2,4,3,1],
   [3,1,2,4],[3,1,4,2],[3,2,1,4],[3,2,4,1],
   [3,4,1,2],[3,4,2,1],[4,1,2,3],[4,1,3,2],
   [4,2,1,3],[4,2,3,1],[4,3,1,2],[4,3,2,1]]

/-- Mutable program state: per-channel sample buffers `aOut`/`aOutptr`
(a buffer is the written region `aOut[f][0..aOutptr[f])`), the running
`totSamples` counter, the samples already flushed to the output file (in
interleaved order), and the index of the next `Math.random()` draw. -/
structure S where
  buf : ℕ → List ℤ
  totSamples : ℕ
  out : List ℤ
  rnd : ℕ

/-- Fresh state: empty buffers, nothing flushed. -/
def initS : S := ⟨fun _ => [], 0, [], 0⟩

/-- `addSample` (lines 222-227): append one sample to channel `f`,
counting total samples on channel 0. -/
def addSample (f : ℕ) (x : ℤ) (s : S) : S :=
  { s with
    buf := Function.update s.buf f (s.buf f ++ [x]),
    totSamples := if f = 0 then s.totSamples + 1 else s.totSamples }

/-- A `for` loop of `addSample` calls over the elements of `xs`
(the bodies of `addTone` and `addSilence`). -/
def addList (f : ℕ) (xs : List ℤ) (s : S) : S :=
  xs.foldl (fun s x => addSample f x s) s

/-- Number of iterations of `for(i=0; i<t*sampleFrequency; i++)` for real
`t`: `max 0 ⌈t*sampleFrequency⌉`. -/
def silenceCount (sf : ℕ) (t : ℚ) : ℕ := (⌈t * (sf : ℚ)⌉).toNat

/-- `addSilence` (lines 214-220): append `t*sampleFrequency` zero
samples to channel `f`. -/
def addSilence (cfg : Config) (f : ℕ) (t : ℚ) (s : S) : S :=
  addList f (List.replicate (silenceCount cfg.sampleFrequency t) 0) s

/-- `setInt16` conversion: wrap an integer to the signed 16-bit range. -/
def toInt16 (x : ℤ) : ℤ := (x + 32768) % 65536 - 32768

/-- The interleaving loop of `flush` (lines 233-242): for each sample
index `i < n`, each channel `f < nF` in order, emit
`aOut[f][i]` as a 16-bit value.  Reading past a channel's written region
(possible because `flush` trusts channel 0's pointer) yields `undefined`
in JS, which `setInt16` stores as 0; `List.getD _ _ 0` models that. -/
def interleaveFrames (b : ℕ → List ℤ) (nF : ℕ) : ℕ → List ℤ
  | 0 => []
  | n+1 => interleaveFrames b nF n ++ (List.range nF).map fun f => toInt16 ((b f).getD n 0)

/-- `flush` (lines 229-246): take `nSamples = aOutptr[0]` ("assume all
channels are now aligned"), interleave that many frames across
`nFingers` channels into the output, then reset every channel pointer. -/
def flush (cfg : Config) (s : S) : S :=
  { buf := fun _ => [],
    totSamples := s.totSamples,
    out := s.out ++ interleaveFrames s.buf (nFingers cfg) ((s.buf 0).length),
    rnd := s.rnd }

/-- `jitter()` (lines 248-250): `Math.random()*jMax - jMax/2`, with the
`Math.random()` value `u ∈ [0,1)` passed in. -/
def jitterDraw (cfg : Config) (u : ℚ) : ℚ := u * jMax cfg - jMax cfg / 2

/-- One step of the per-note finger loop (lines 299-312): channel `f` is
silenced outright if it is the centre/LFE channel of a 6-channel file,
otherwise it is the next finger `lFinger`, sounding the tone when
`lFinger+1` equals the sequence entry `v` and silence otherwise.
The accumulator is (state, lFinger). -/
def noteStep (cfg : Config) (tone : List ℤ) (v : ℕ) (p : S × ℕ) (f : ℕ) : S × ℕ :=
  if cfg.sixChan ∧ (f = 2 ∨ f = 3) then (addSilence cfg f tTone p.1, p.2)
  else if p.2 + 1 = v then (addList f tone p.1, p.2 + 1)
  else (addSilence cfg f tTone p.1, p.2 + 1)

/-- One note-slot of an ON bar (lines 297-312): run the finger loop with
`v = seq[n]`. -/
def noteSlot (cfg : Config) (tone : List ℤ) (seq : List ℕ) (n : ℕ) (s : S) : S :=
  ((List.range (nFingers cfg)).foldl (noteStep cfg tone (seq.getD n 0)) (s, 0)).1

/-- The shared jittered gap appended to every channel after a note slot
(lines 313-317). -/
def gapFill (cfg : Config) (g : ℚ) (s : S) : S :=
  (List.range (nFingers cfg)).foldl (fun s f => addSilence cfg f g s) s

/-- One ON bar (lines 289-319): draw `seqnum = ⌊Math.random()*24⌋`, then
for each of the 4 notes run the finger loop and append the jittered gap
`tCR4 - tTone + jitter()` to every channel.  (The CSV log write is I/O
and not modelled.) -/
def onBar (cfg : Config) (u : ℕ → ℚ) (tone : List ℤ) (s : S) : S :=
  let seqnum := (⌊u s.rnd * 24⌋).toNat
  let seq := sequences.getD seqnum []
  let s1 : S := { s with rnd := s.rnd + 1 }
  (List.range 4).foldl (fun s n =>
    let s2 := noteSlot cfg tone seq n s
    let j := jitterDraw cfg (u s2.rnd)
    let s3 : S := { s2 with rnd := s2.rnd + 1 }
    gapFill cfg (tCR4 - tTone + j) s3) s1

/-- One OFF bar (lines 321-328): `for(f=0; f<4; f++) addSilence(f, tCR)`.
The source hard-codes the loop bound 4 (not `nFingers`). -/
def offBar (cfg : Config) (s : S) : S :=
  (List.range 4).foldl (fun s f => addSilence cfg f tCR s) s

/-- The body of one iteration of the phrase loop: `nBlocksON` ON bars
followed by `nBlocksOFF` OFF bars (lines 289-328). -/
def phraseBody (cfg : Config) (u : ℕ → ℚ) (tone : List ℤ) (s : S) : S :=
  (List.range nBlocksOFF).foldl (fun s _ => offBar cfg s)
    ((List.range nBlocksON).foldl (fun s _ => onBar cfg u tone s) s)

/-- One full phrase: bars then `flush()` (line 329). -/
def phrase (cfg : Config) (u : ℕ → ℚ) (tone : List ℤ) (s : S) : S :=
  flush cfg (phraseBody cfg u tone s)

/-- The `for(;;)` loop of `makePhrases` (lines 280-330): stop once
`t > targetDuration`, otherwise run a phrase and advance `t` by the five
`t += tCR` increments (one per bar).  The loop always terminates because
`t` grows by `5*tCR = 10/3` per iteration; `fuel` is an upper bound on the
iteration count, never reached for any valid duration (≤ 14400 s needs
4321 iterations). -/
def makePhrasesAux (cfg : Config) (u : ℕ → ℚ) (tone : List ℤ) : ℕ → ℚ → S → S
  | 0, _, s => s
  | fuel+1, t, s =>
    if t ≤ (cfg.targetDuration : ℚ) then
      makePhrasesAux cfg u tone fuel (t + 5 * tCR) (phrase cfg u tone s)
    else s

/-- `makePhrases()` (lines 272-331), started at `t = 0`. -/
def makePhrases (cfg : Config) (u : ℕ → ℚ) (tone : List ℤ) (s : S) : S :=
  makePhrasesAux cfg u tone 4322 0 s

/-- Inner loop of `makeIntro` (lines 259-267): for channel `f`, walk
`c` over all channels appending the intro tone when `c == f` and
`intro` seconds of silence otherwise -- every append targets channel `f`. -/
def introFillChan (cfg : Config) (intTone : List ℤ) (f : ℕ) (s : S) : S :=
  (List.range (nFingers cfg)).foldl
    (fun s c => if c = f then addList f intTone s else addSilence cfg f (cfg.intro : ℚ) s) s

/-- `makeIntro()` (lines 254-270): no-op when `intro == 0`; otherwise
build an `intro`-second tone, fill every channel, and flush. -/
def makeIntro (cfg : Config) (sinIntro : ℕ → ℚ) (s : S) : S :=
  if cfg.intro = 0 then s
  else
    flush cfg ((List.range (nFingers cfg)).foldl
      (fun s f => introFillChan cfg (createSine sinIntro cfg.maxAmp (cfg.intro * cfg.sampleFrequency)) f s) s)

/-- The audio part of the main program (lines 343-347): optional intro,
then phrases until the target duration is reached.  `sinTone`/`sinIntro`
are the `Math.sin` oracles of the two `createSine` calls and `u` the
`Math.random` stream. -/
def runProgram (cfg : Config) (sinTone sinIntro : ℕ → ℚ) (u : ℕ → ℚ) : S :=
  makePhrases cfg u (toneTable cfg sinTone) (makeIntro cfg sinIntro initS)

/-!  WAV header (lines 360-444).  -/

/-- `ToUint32` as applied by `setUint32` to the nonnegative sizes
produced here: truncate to an integer, modulo 2^32. -/
def jsToUint32 (q : ℚ) : ℕ := (⌊q⌋).toNat % 4294967296

/-- Little-endian bytes of a 16-bit write. -/
def u16le (x : ℕ) : List ℕ := [x % 256, x / 256 % 256]

/-- Little-endian bytes of a 32-bit write. -/
def u32le (x : ℕ) : List ℕ := [x % 256, x / 256 % 256, x / 65536 % 256, x / 16777216 % 256]

/-- Bytes of `writeString('RIFF')`. -/
def riffB : List ℕ := [82, 73, 70, 70]
/-- Bytes of `writeString('WAVE')`. -/
def waveB : List ℕ := [87, 65, 86, 69]
/-- Bytes of `writeString('fmt ')`. -/
def fmtB : List ℕ := [102, 109, 116, 32]
/-- Bytes of `writeString('data')`. -/
def dataTagB : List ℕ := [100, 97, 116, 97]
/-- Bytes of the PCM sub-format GUID tail (line 428). -/
def guidB : List ℕ := [0, 0, 0, 0, 16, 0, 128, 0, 0, 170, 0, 56, 155, 113]

/-- `initWavHeader`'s channel mask (lines 361-368): front L/R always,
side L/R or back L/R depending on `useSideChannels`, plus LFE and front
centre in 6-channel mode. -/
def channelMask (cfg : Config) : ℕ :=
  let m : ℕ := 0x1 ||| 0x2
  let m := if cfg.useSideChannels then m ||| (0x200 ||| 0x400) else m ||| (0x10 ||| 0x20)
  if cfg.sixChan then m ||| (0x8 ||| 0x4) else m

/-- `nPhrases` (line 188): `Math.round(targetDuration / (tCR*(nBlocksOFF+nBlocksON)))`. -/
def nPhrasesZ (cfg : Config) : ℤ :=
  round ((cfg.targetDuration : ℚ) / (tCR * ((nBlocksOFF : ℚ) + (nBlocksON : ℚ))))

/-- `duration` (line 189): `(intro*nFingers) + tCR*(nBlocksOFF+nBlocksON)*nPhrases`. -/
def durationQ (cfg : Config) : ℚ :=
  ((cfg.intro * nFingers cfg : ℕ) : ℚ) + tCR * ((nBlocksOFF : ℚ) + (nBlocksON : ℚ)) * (nPhrasesZ cfg : ℚ)

/-- Declared frame count `sampleFrequency * duration` (line 371). -/
def numFramesQ (cfg : Config) : ℚ := (cfg.sampleFrequency : ℚ) * durationQ cfg

/-- `dataSize = numFrames * blockAlign` with `blockAlign = numChannels*2`
(lines 386-388). -/
def dataSizeQ (cfg : Config) : ℚ := numFramesQ cfg * ((nFingers cfg : ℚ) * 2)

/-- Bytes of the extensible header written before the channel mask
(lines 412-425): RIFF chunk, WAVE tag, `fmt ` subchunk through the
extended bits-per-sample field.  40 bytes. -/
def hb1 (cfg : Config) : List ℕ :=
  riffB ++ u32le (jsToUint32 (dataSizeQ cfg + 36)) ++ waveB ++
  fmtB ++ u32le 40 ++ u16le 0xfffe ++ u16le (nFingers cfg) ++
  u32le cfg.sampleFrequency ++ u32le (cfg.sampleFrequency * (nFingers cfg * 2)) ++
  u16le (nFingers cfg * 2) ++ u16le 16 ++ u16le 22 ++ u16le 16

/-- Bytes written after the channel mask (lines 427-441): PCM tag, GUID
tail, `data` tag, data size.  24 bytes. -/
def hb2 (cfg : Config) : List ℕ :=
  u16le 1 ++ guidB ++ dataTagB ++ u32le (jsToUint32 (dataSizeQ cfg))

/-- `buildWaveHeader` on the options from `initWavHeader` (which always
sets `use_extensible`): the 68-byte extensible header. -/
def headerBytes (cfg : Config) : List ℕ :=
  hb1 cfg ++ u32le (channelMask cfg) ++ hb2 cfg

/-- Decode a little-endian 32-bit field at byte offset `off`. -/
def decode32 (bs : List ℕ) (off : ℕ) : ℕ :=
  bs.getD off 0 + 256 * bs.getD (off+1) 0 + 65536 * bs.getD (off+2) 0 +
  16777216 * bs.getD (off+3) 0

/-- Little-endian bytes of one stored 16-bit sample (two's complement). -/
def le16 (x : ℤ) : List ℕ := [((x % 65536).toNat) % 256, ((x % 65536).toNat) / 256]

/-- Byte serialization of the flushed sample stream. -/
def dataBytes : List ℤ → List ℕ
  | [] => []
  | x :: xs => le16 x ++ dataBytes xs

/-- The produced output file: header followed by all flushed data. -/
def fileBytes (cfg : Config) (sinTone sinIntro u : ℕ → ℚ) : List ℕ :=
  headerBytes cfg ++ dataBytes (runProgram cfg sinTone sinIntro u).out

/-!  Helper quantities and concrete fixtures used by witnesses.  -/

/-- Map a 0-based finger index to its output channel: identity in
4-channel mode; in 6-channel mode fingers 2 and 3 sit on channels 4 and 5
(channels 2 and 3 being centre/LFE). -/
def chanOfFinger (cfg : Config) (g : ℕ) : ℕ :=
  if cfg.sixChan ∧ 2 ≤ g then g + 2 else g

/-- Samples appended to channel 0 during one phrase when the jitter
fraction is 0 (tone + gap per note, 4 notes per ON bar, then the OFF
bars). -/
def phraseFrames (sf : ℕ) : ℕ :=
  3 * (4 * (sf / 10 + silenceCount sf (1/15))) + 2 * silenceCount sf tCR

/-- Iteration count of the phrase loop, mirroring `makePhrasesAux`. -/
def phrasesFrom (T : ℚ) : ℕ → ℚ → ℕ
  | 0, _ => 0
  | fuel+1, t => if t ≤ T then phrasesFrom T fuel (t + 5 * tCR) + 1 else 0

/-- An all-zeros `Math.random` stream (a legal value of every draw). -/
def u0 : ℕ → ℚ := fun _ => 0

/-- A degenerate sine oracle. -/
def sin0 : ℕ → ℚ := fun _ => 0

/-- A sine oracle pinned at 1 (the peak of the wave). -/
def sin1 : ℕ → ℚ := fun _ => 1

/-- Concrete 4-channel configuration at maximal jitter. -/
def cfgA : Config := ⟨22050, 47/200, 0, 60, 32760, false, false⟩

/-- The § 8 concrete-scenario configuration: 22050 Hz, amplitude 32760,
10 s, jitter 0, 4 channels, no intro. -/
def cfgB : Config := ⟨22050, 0, 0, 10, 32760, false, false⟩

/-- Default-duration 4-channel configuration (60 s). -/
def cfgC : Config := ⟨22050, 0, 0, 60, 32760, false, false⟩

/-- Small valid 4-channel configuration (1000 Hz, 1 s, no jitter). -/
def cfg7 : Config := ⟨1000, 0, 0, 1, 1, false, false⟩

/-- Small valid 6-channel configuration (1000 Hz, 1 s, no jitter). -/
def cfgSix : Config := ⟨1000, 0, 0, 1, 100, false, true⟩

/-- Valid 6-channel configuration with a 1-second intro. -/
def cfgSixIntro : Config := ⟨1000, 0, 1, 1, 1, false, true⟩

/-- Tiny 6-channel instance used to evaluate a run concretely. -/
def cfgTiny6 : Config := ⟨10, 0, 0, 1, 1, false, true⟩

/-- A state whose channel timelines are misaligned: channel 0 holds one
sample, channel 1 holds two. -/
def s8 : S := ⟨fun f => if f = 0 then [7] else if f = 1 then [8, 9] else [], 0, [], 0⟩

/-- The same configuration with the side-channel flag cleared; the audio
pipeline never reads that flag. -/
def stripSide (cfg : Config) : Config := { cfg with useSideChannels := false }

/-- Invariant of 6-channel runs: every flushed sample sitting at a
channel-2 or channel-3 position is zero, the flushed stream consists of
whole 6-sample frames, and the centre/LFE buffers hold only zeros. -/
def ZeroOut6 (s : S) : Prop :=
  (∀ j : ℕ, j % 6 = 2 ∨ j % 6 = 3 → s.out.getD j 0 = 0) ∧
  s.out.length % 6 = 0 ∧
  (∀ x ∈ s.buf 2, x = 0) ∧ (∀ x ∈ s.buf 3, x = 0)

/-!  Basic bookkeeping lemmas about the buffer operations.  -/

theorem addSample_buf (f : ℕ) (x : ℤ) (s : S) :
    (addSample f x s).buf = Function.update s.buf f (s.buf f ++ [x]) := rfl

theorem addSample_out (f : ℕ) (x : ℤ) (s : S) : (addSample f x s).out = s.out := rfl

theorem addList_buf (f : ℕ) (xs : List ℤ) (s : S) :
    (addList f xs s).buf = Function.update s.buf f (s.buf f ++ xs) := by
  induction xs generalizing s with
  | nil => simp [addList, Function.update_eq_self]
  | cons x xs ih =>
    show (addList f xs (addSample f x s)).buf = _
    rw [ih, addSample_buf]
    simp [Function.update_idem, Function.update_same]

theorem addList_out (f : ℕ) (xs : List ℤ) (s : S) : (addList f xs s).out = s.out := by
  induction xs generalizing s with
  | nil => rfl
  | cons x xs ih => exact (ih (addSample f x s)).trans rfl

theorem addSilence_buf (cfg : Config) (f : ℕ) (t : ℚ) (s : S) :
    (addSilence cfg f t s).buf =
      Function.update s.buf f
        (s.buf f ++ List.replicate (silenceCount cfg.sampleFrequency t) 0) :=
  addList_buf _ _ _

theorem addSilence_out (cfg : Config) (f : ℕ) (t : ℚ) (s : S) :
    (addSilence cfg f t s).out = s.out := addList_out _ _ _

/-- A loop `for(f=0; f<m; f++) addSilence(f, t)` appends the same silence
block to exactly the channels `0..m-1`. -/
theorem foldl_silence_buf (cfg : Config) (t : ℚ) :
    ∀ (m : ℕ) (s : S) (c : ℕ),
      ((List.range m).foldl (fun s f => addSilence cfg f t s) s).buf c =
        if c < m then s.buf c ++ List.replicate (silenceCount cfg.sampleFrequency t) 0
        else s.buf c := by
  intro m
  induction m with
  | zero => intro s c; simp
  | succ m ih =>
    intro s c
    rw [List.range_succ, List.foldl_append, List.foldl_cons, List.foldl_nil]
    rw [addSilence_buf, Function.update_apply]
    by_cases hc : c = m
    · subst hc
      rw [if_pos rfl, ih, if_neg (by omega), if_pos (by omega)]
    · rw [if_neg hc, ih]
      by_cases h : c < m
      · rw [if_pos h, if_pos (by omega)]
      · rw [if_neg h, if_neg (by omega)]

theorem foldl_silence_out (cfg : Config) (t : ℚ) (l : List ℕ) (s : S) :
    ((l.foldl (fun s f => addSilence cfg f t s) s)).out = s.out := by
  induction l generalizing s with
  | nil => rfl
  | cons a l ih => exact (ih _).trans (addSilence_out _ _ _ _)

theorem interleaveFrames_length (b : ℕ → List ℤ) (nF : ℕ) :
    ∀ n, (interleaveFrames b nF n).length = n * nF := by
  intro n
  induction n with
  | zero => simp [interleaveFrames]
  | succ n ih => simp [interleaveFrames, ih, Nat.succ_mul]

theorem interleaveFrames_getD (b : ℕ → List ℤ) (nF : ℕ) :
    ∀ n j, j < n * nF → (interleaveFrames b nF n).getD j 0 =
      toInt16 ((b (j % nF)).getD (j / nF) 0) := by
  intro n
  induction n with
  | zero => intro j h; omega
  | succ n ih =>
    intro j hj
    have hnF : 0 < nF := by
      rcases Nat.eq_zero_or_pos nF with h0 | h0
      · subst h0; omega
      · exact h0
    have hj' : j < n * nF + nF := by rw [Nat.succ_mul] at hj; exact hj
    simp only [interleaveFrames]
    by_cases h : j < n * nF
    · rw [List.getD_append _ _ _ _ (by rw [interleaveFrames_length]; exact h)]
      exact ih j h
    · have hk : j - n * nF < nF := by omega
      have hj2 : j = (j - n * nF) + n * nF := by omega
      rw [List.getD_append_right _ _ _ _ (by rw [interleaveFrames_length]; omega)]
      rw [interleaveFrames_length]
      have hmod : j % nF = j - n * nF := by
        conv_lhs => rw [hj2]
        rw [Nat.add_mul_mod_self_right, Nat.mod_eq_of_lt hk]
      have hdiv : j / nF = n := by
        conv_lhs => rw [hj2]
        rw [Nat.add_mul_div_right _ _ hnF, Nat.div_eq_of_lt hk]
        omega
      rw [List.getD_eq_getElem _ _ (by simpa using hk)]
      simp only [List.getElem_map, List.getElem_range]
      rw [hmod, hdiv]

theorem dataBytes_length (l : List ℤ) : (dataBytes l).length = 2 * l.length := by
  induction l with
  | nil => rfl
  | cons x xs ih => simp [dataBytes, le16, ih]; ring

theorem flush_out_length (cfg : Config) (s : S) :
    ((flush cfg s).out).length = s.out.length + (s.buf 0).length * nFingers cfg := by
  simp [flush, interleaveFrames_length]

theorem flush_buf (cfg : Config) (s : S) (f : ℕ) : (flush cfg s).buf f = [] := rfl

/-!  Claim C4.  -/

/-- C4: every jitter value drawn lies within [-jMax/2, +jMax/2] where
jMax = jitterFraction * quarterPeriod, and for jitterFraction ≤ 0.235 the
per-note-slot gap (quarterPeriod - toneDuration) + jitterSample is never
negative. -/
theorem c4_jitter_bounds (cfg : Config) (v : ℚ) (hv0 : 0 ≤ v) (hv1 : v < 1)
    (hj0 : 0 ≤ cfg.jitterPct) (hj1 : cfg.jitterPct ≤ 47/200) :
    -(jMax cfg / 2) ≤ jitterDraw cfg v ∧ jitterDraw cfg v ≤ jMax cfg / 2 ∧
      0 ≤ tCR4 - tTone + jitterDraw cfg v := by
  have h16 : tCR4 = 1/6 := by norm_num [tCR4, tCR, fCR]
  have hjmv : jMax cfg = cfg.jitterPct * (1/6) := by rw [jMax, h16]
  have hjm0 : 0 ≤ jMax cfg := by rw [hjmv]; exact mul_nonneg hj0 (by norm_num)
  have hub : jitterDraw cfg v ≤ jMax cfg / 2 := by
    have h := mul_le_of_le_one_left hjm0 hv1.le
    unfold jitterDraw
    linarith
  have hlb : -(jMax cfg / 2) ≤ jitterDraw cfg v := by
    have h := mul_nonneg hv0 hjm0
    unfold jitterDraw
    linarith
  refine ⟨hlb, hub, ?_⟩
  have hjmub : jMax cfg ≤ 47/1200 := by rw [hjmv]; linarith
  have ht : tTone = 1/10 := rfl
  rw [h16, ht]
  linarith

/-- C4 witness: the bounds instantiated at u = 1/2 with maximal jitter. -/
theorem c4_jitter_bounds_witness :
    (0:ℚ) ≤ 1/2 ∧ (1/2:ℚ) < 1 ∧ (0:ℚ) ≤ cfgA.jitterPct ∧ cfgA.jitterPct ≤ 47/200 ∧
    (-(jMax cfgA / 2) ≤ jitterDraw cfgA (1/2) ∧ jitterDraw cfgA (1/2) ≤ jMax cfgA / 2 ∧
      0 ≤ tCR4 - tTone + jitterDraw cfgA (1/2)) :=
  ⟨by norm_num, by norm_num, by norm_num [cfgA], by norm_num [cfgA],
    c4_jitter_bounds cfgA (1/2) (by norm_num) (by norm_num)
      (by norm_num [cfgA]) (by norm_num [cfgA])⟩

/-!  Claim C6.  -/

/-- C6: the channel mask always contains front-left and front-right
(bits 0,1); it contains back-left/back-right (bits 4,5) when
useSideChannels is false and side-left/side-right (bits 9,10) when it is
true; it contains front-center and low-frequency (bits 2,3) exactly when
the channel count is 6; and for 4 channels without side channels it
equals 0x33. -/
theorem c6_channel_mask (cfg : Config) :
    (channelMask cfg).testBit 0 = true ∧ (channelMask cfg).testBit 1 = true ∧
    (cfg.useSideChannels = false →
      (channelMask cfg).testBit 4 = true ∧ (channelMask cfg).testBit 5 = true ∧
      (channelMask cfg).testBit 9 = false ∧ (channelMask cfg).testBit 10 = false) ∧
    (cfg.useSideChannels = true →
      (channelMask cfg).testBit 9 = true ∧ (channelMask cfg).testBit 10 = true ∧
      (channelMask cfg).testBit 4 = false ∧ (channelMask cfg).testBit 5 = false) ∧
    (((channelMask cfg).testBit 2 = true ∧ (channelMask cfg).testBit 3 = true) ↔
      nFingers cfg = 6) ∧
    (cfg.useSideChannels = false → cfg.sixChan = false → channelMask cfg = 0x33) := by
  obtain ⟨sf, jp, it, td, ma, side, six⟩ := cfg
  cases side <;> cases six <;> refine ⟨?_, ?_, ?_, ?_, ?_, ?_⟩ <;>
    simp [channelMask, nFingers] <;> decide

/-- C6 witness: the § 8 scenario configuration gets mask 0x33. -/
theorem c6_channel_mask_witness : channelMask cfgB = 0x33 :=
  (c6_channel_mask cfgB).2.2.2.2.2 rfl rfl

/-!  Claim C8.  -/

/-- C8 counterexample: with channel 0 holding 1 sample and channel 1
holding 2, `flush` does not signal any error: it emits exactly one frame,
silently discarding channel 1's second sample (the value 9 is gone) and
padding channels 2 and 3 with zeros, and resets every pointer. -/
theorem c8_flush_silently_truncates :
    (s8.buf 1).length ≠ (s8.buf 0).length ∧
    (flush cfgB s8).out = [7, 8, 0, 0] ∧
    (flush cfgB s8).buf 1 = [] := by
  refine ⟨by decide, ?_, rfl⟩
  decide

/-- C8 amended: `flush` performs no alignment check; whatever the other
channels hold, it emits exactly `aOutptr[0]` frames (channel 0's sample
count) and clears every channel buffer. -/
theorem c8_flush_no_check (cfg : Config) (s : S) :
    ((flush cfg s).out).length = s.out.length + (s.buf 0).length * nFingers cfg ∧
    ∀ f, (flush cfg s).buf f = [] :=
  ⟨flush_out_length cfg s, fun _ => rfl⟩

/-!  Claim C2.  -/

/-- C2 (code bug): in 6-channel mode an OFF bar appends one CR period of
silence to channels 0-3 only -- the loop bound is hard-coded to 4 -- so
channels 4 and 5 receive nothing and the sample-alignment invariant
assumed by `flush` is violated.  At 1000 Hz the OFF bar grows channel 0
by 667 samples while leaving channel 4 and channel 5 untouched. -/
theorem c2_off_bar_skips_high_channels (s : S) :
    (offBar cfgSix s).buf 4 = s.buf 4 ∧ (offBar cfgSix s).buf 5 = s.buf 5 ∧
    (offBar cfgSix s).buf 0 = s.buf 0 ++ List.replicate 667 0 := by
  have hc : silenceCount cfgSix.sampleFrequency tCR = 667 := by
    unfold silenceCount
    have h : ⌈tCR * ((cfgSix.sampleFrequency : ℕ) : ℚ)⌉ = 667 := by
      rw [Int.ceil_eq_iff] <;> norm_num [tCR, fCR, cfgSix]
    rw [h]
    rfl
  unfold offBar
  refine ⟨?_, ?_, ?_⟩
  · rw [foldl_silence_buf]; norm_num
  · rw [foldl_silence_buf]; norm_num
  · rw [foldl_silence_buf, hc]; norm_num

/-!  Claim C10.  -/

/-- C10: for a valid amplitude (1..32767) and a sine oracle bounded by 1
in absolute value, every sample produced by `createSine` lies within
[-32767, 32767], so the 16-bit serialization in `flush` leaves it
unchanged (no overflow or clipping). -/
theorem c10_sine_within_int16 (cfg : Config) (hv : ValidConfig cfg)
    (sinTab : ℕ → ℚ) (hs : ∀ i, -1 ≤ sinTab i ∧ sinTab i ≤ 1) (len : ℕ) :
    ∀ x ∈ createSine sinTab cfg.maxAmp len,
      -32767 ≤ x ∧ x ≤ 32767 ∧ toInt16 x = x := by
  intro x hx
  obtain ⟨i, -, rfl⟩ := List.mem_map.mp hx
  obtain ⟨-, -, -, -, -, -, -, hA1, hA2⟩ := hv
  obtain ⟨hs1, hs2⟩ := hs i
  have hA0 : (1:ℚ) ≤ (cfg.maxAmp : ℚ) := by exact_mod_cast hA1
  have hAub : (cfg.maxAmp : ℚ) ≤ 32767 := by exact_mod_cast hA2
  have hq1 : -(cfg.maxAmp : ℚ) ≤ (cfg.maxAmp : ℚ) * sinTab i := by nlinarith
  have hq2 : (cfg.maxAmp : ℚ) * sinTab i ≤ (cfg.maxAmp : ℚ) := by nlinarith
  have hlow : (-32767 : ℤ) ≤ jsRound ((cfg.maxAmp : ℚ) * sinTab i) := by
    rw [jsRound]
    apply Int.le_floor.mpr
    push_cast
    linarith
  have hhigh : jsRound ((cfg.maxAmp : ℚ) * sinTab i) ≤ 32767 := by
    rw [jsRound]
    have hf := Int.floor_le ((cfg.maxAmp : ℚ) * sinTab i + 1/2)
    have hcast : ((⌊(cfg.maxAmp : ℚ) * sinTab i + 1/2⌋ : ℤ) : ℚ) < 32768 := by linarith
    have : (⌊(cfg.maxAmp : ℚ) * sinTab i + 1/2⌋ : ℤ) < 32768 := by exact_mod_cast hcast
    omega
  exact ⟨hlow, hhigh, by unfold toInt16; omega⟩

/-- C10 witness: at peak amplitude 32760 and a sine oracle at its peak,
the single produced sample 32760 is in range and serializes unchanged. -/
theorem c10_sine_within_int16_witness :
    ValidConfig cfgA ∧ (32760 : ℤ) ∈ createSine sin1 cfgA.maxAmp 1 ∧
    (-32767 ≤ (32760:ℤ) ∧ (32760:ℤ) ≤ 32767 ∧ toInt16 32760 = 32760) := by
  have hvc : ValidConfig cfgA := by norm_num [ValidConfig, cfgA]
  have hone : createSine sin1 cfgA.maxAmp 1 = [32760] := by
    have h : jsRound ((cfgA.maxAmp : ℚ) * sin1 0) = 32760 := by
      unfold jsRound
      rw [Int.floor_eq_iff] <;> norm_num [sin1, cfgA]
    simp [createSine, show List.range 1 = [0] from rfl, h]
  have hmem : (32760 : ℤ) ∈ createSine sin1 cfgA.maxAmp 1 := by
    rw [hone]
    exact List.mem_singleton.mpr rfl
  exact ⟨hvc, hmem,
    c10_sine_within_int16 cfgA hvc sin1 (fun i => by norm_num [sin1]) 1 32760 hmem⟩

/-!  Claim C5: the declared sizes in the WAV header.  -/

theorem hb1_length (cfg : Config) : (hb1 cfg).length = 40 := by
  simp [hb1, riffB, waveB, fmtB, u32le, u16le]

theorem pre64_length (cfg : Config) :
    (hb1 cfg ++ u32le (channelMask cfg) ++ (u16le 1 ++ guidB ++ dataTagB)).length = 64 := by
  simp [hb1, riffB, waveB, fmtB, guidB, dataTagB, u32le, u16le]

theorem headerBytes_split (cfg : Config) :
    headerBytes cfg =
      (hb1 cfg ++ u32le (channelMask cfg) ++ (u16le 1 ++ guidB ++ dataTagB)) ++
        u32le (jsToUint32 (dataSizeQ cfg)) := by
  simp [headerBytes, hb2, List.append_assoc]

/-- The data-size field at byte offset 64 decodes back to the written
(truncated) data size. -/
theorem decode32_header (cfg : Config) :
    decode32 (headerBytes cfg) 64 = jsToUint32 (dataSizeQ cfg) := by
  have hlt : jsToUint32 (dataSizeQ cfg) < 4294967296 :=
    Nat.mod_lt _ (by norm_num)
  rw [headerBytes_split cfg]
  unfold decode32
  rw [List.getD_append_right _ _ _ _ (by rw [pre64_length]),
      List.getD_append_right _ _ _ _ (by rw [pre64_length]; omega),
      List.getD_append_right _ _ _ _ (by rw [pre64_length]; omega),
      List.getD_append_right _ _ _ _ (by rw [pre64_length]; omega),
      pre64_length]
  simp only [u32le]
  norm_num
  omega

/-- C5: the header's declared frame count is `sampleRate * duration` with
`duration = intro*channelCount + CR-period*(nON+nOFF)*phraseCount` and
`phraseCount = round(target/(CR-period*(nON+nOFF)))`, and the `data`
subchunk field at byte offset 64 declares `frameCount*channelCount*2`
bytes.  `N` names the (integral) frame count. -/
theorem c5_header_frame_count (cfg : Config) (N : ℕ)
    (hN : numFramesQ cfg = (N : ℚ)) (hsz : N * (nFingers cfg * 2) < 4294967296) :
    decode32 (headerBytes cfg) 64 = N * (nFingers cfg * 2) ∧
    numFramesQ cfg = (cfg.sampleFrequency : ℚ) *
      (((cfg.intro * nFingers cfg : ℕ) : ℚ) +
        tCR * ((nBlocksON : ℚ) + (nBlocksOFF : ℚ)) *
          ((round ((cfg.targetDuration : ℚ) /
            (tCR * ((nBlocksON : ℚ) + (nBlocksOFF : ℚ)))) : ℤ) : ℚ)) := by
  constructor
  · have hds : jsToUint32 (dataSizeQ cfg) = N * (nFingers cfg * 2) := by
      unfold jsToUint32 dataSizeQ
      rw [hN]
      have hcast : ((N:ℚ) * ((nFingers cfg : ℚ) * 2)) = ((N * (nFingers cfg * 2) : ℕ) : ℚ) := by
        push_cast
        ring
      rw [hcast, Int.floor_natCast]
      simp only [Int.toNat_natCast]
      exact Nat.mod_eq_of_lt hsz
    rw [decode32_header, hds]
  · unfold numFramesQ durationQ nPhrasesZ
    norm_num [nBlocksON, nBlocksOFF]

/-- C5 witness: the § 8 scenario (22050 Hz, 10 s): 3 phrases of 10/3 s,
220500 declared frames, data size 1764000 bytes. -/
theorem c5_header_frame_count_witness :
    numFramesQ cfgB = (220500 : ℚ) ∧ 220500 * (nFingers cfgB * 2) < 4294967296 ∧
    decode32 (headerBytes cfgB) 64 = 220500 * (nFingers cfgB * 2) := by
  have hr : round ((cfgB.targetDuration : ℚ) / (tCR * ((nBlocksOFF:ℚ) + (nBlocksON:ℚ)))) = 3 := by
    have hq : ((cfgB.targetDuration : ℚ) / (tCR * ((nBlocksOFF:ℚ) + (nBlocksON:ℚ)))) = 3 := by
      norm_num [cfgB, tCR, fCR, nBlocksON, nBlocksOFF]
    rw [round_eq, hq]
    rw [Int.floor_eq_iff] <;> norm_num
  have hN : numFramesQ cfgB = (220500 : ℚ) := by
    unfold numFramesQ durationQ nPhrasesZ
    rw [hr]
    norm_num [cfgB, tCR, fCR, nFingers, nBlocksON, nBlocksOFF]
  have hsz : 220500 * (nFingers cfgB * 2) < 4294967296 := by norm_num [nFingers, cfgB]
  exact ⟨hN, hsz, (c5_header_frame_count cfgB 220500 hN hsz).1⟩

/-!  Claim C9: the audio pipeline never reads `useSideChannels`; only the
channel-mask field of the header depends on it.  -/

theorem phrase_strip (cfg : Config) (u : ℕ → ℚ) (tone : List ℤ) (s : S) :
    phrase (stripSide cfg) u tone s = phrase cfg u tone s := rfl

theorem makePhrasesAux_strip (cfg : Config) (u : ℕ → ℚ) (tone : List ℤ) :
    ∀ (fuel : ℕ) (t : ℚ) (s : S),
      makePhrasesAux (stripSide cfg) u tone fuel t s = makePhrasesAux cfg u tone fuel t s := by
  intro fuel
  induction fuel with
  | zero => intro t s; rfl
  | succ n ih =>
    intro t s
    show (if t ≤ ((stripSide cfg).targetDuration : ℚ) then
            makePhrasesAux (stripSide cfg) u tone n (t + 5 * tCR)
              (phrase (stripSide cfg) u tone s)
          else s) = _
    rw [show ((stripSide cfg).targetDuration : ℚ) = (cfg.targetDuration : ℚ) from rfl,
        phrase_strip, ih]
    rfl

theorem runProgram_strip (cfg : Config) (sinT sinI u : ℕ → ℚ) :
    runProgram (stripSide cfg) sinT sinI u = runProgram cfg sinT sinI u := by
  unfold runProgram makePhrases
  rw [show toneTable (stripSide cfg) sinT = toneTable cfg sinT from rfl,
      show makeIntro (stripSide cfg) sinI initS = makeIntro cfg sinI initS from rfl,
      makePhrasesAux_strip]

theorem hb1_u32_length (cfg : Config) (m : ℕ) :
    (hb1 cfg ++ u32le m).length = 44 := by
  simp [hb1_length, u32le]

/-- C9: two runs identical except for `useSideChannels` (and with the
same oracle streams) produce output files that agree at every byte
position outside the channel-mask field (bytes 40-43 of the header);
in particular every byte of the audio data is identical. -/
theorem c9_side_flag_only_mask (cfg : Config) (sinT sinI u : ℕ → ℚ) (j : ℕ)
    (hj : j < 40 ∨ 43 < j) :
    (fileBytes { cfg with useSideChannels := true } sinT sinI u).getD j 0 =
    (fileBytes { cfg with useSideChannels := false } sinT sinI u).getD j 0 := by
  have hrun : runProgram { cfg with useSideChannels := true } sinT sinI u =
      runProgram { cfg with useSideChannels := false } sinT sinI u := by
    rw [← runProgram_strip { cfg with useSideChannels := true },
        ← runProgram_strip { cfg with useSideChannels := false }]
    rfl
  have hhb1 : hb1 { cfg with useSideChannels := true } =
      hb1 { cfg with useSideChannels := false } := rfl
  have hhb2 : hb2 { cfg with useSideChannels := true } =
      hb2 { cfg with useSideChannels := false } := rfl
  unfold fileBytes headerBytes
  rw [hrun, hhb1, hhb2]
  rcases hj with hj | hj
  · rw [List.append_assoc, List.append_assoc, List.append_assoc, List.append_assoc,
        List.getD_append _ _ _ _ (by rw [hb1_length]; exact hj),
        List.getD_append _ _ _ _ (by rw [hb1_length]; exact hj)]
  · rw [List.append_assoc (hb1 _ ++ u32le _), List.append_assoc (hb1 _ ++ u32le _)]
    rw [List.getD_append_right _ _ _ _ (by rw [hb1_u32_length]; omega)]
    conv_rhs => rw [List.getD_append_right _ _ _ _ (by rw [hb1_u32_length]; omega)]
    rw [hb1_u32_length, hb1_u32_length]

/-- C9 witness: instantiated at the § 8 scenario configuration and byte 0. -/
theorem c9_side_flag_only_mask_witness :
    ((0:ℕ) < 40 ∨ 43 < (0:ℕ)) ∧
    (fileBytes { cfgB with useSideChannels := true } sin0 sin0 u0).getD 0 0 =
      (fileBytes { cfgB with useSideChannels := false } sin0 sin0 u0).getD 0 0 :=
  ⟨Or.inl (by norm_num),
    c9_side_flag_only_mask cfgB sin0 sin0 u0 0 (Or.inl (by norm_num))⟩

/-!  Claim C1: exactly one finger sounds per note slot.  -/

theorem sequences_getD_bound :
    ∀ sn < 24, ∀ n < 4, 1 ≤ (sequences.getD sn []).getD n 0 ∧
      (sequences.getD sn []).getD n 0 ≤ 4 := by decide

theorem noteStep_buf_ne (cfg : Config) (tone : List ℤ) (v : ℕ) (p : S × ℕ)
    (f c : ℕ) (h : c ≠ f) : ((noteStep cfg tone v p f).1).buf c = (p.1).buf c := by
  unfold noteStep
  split_ifs <;> simp [addSilence_buf, addList_buf, Function.update_apply, h]

theorem foldl_noteStep_out (cfg : Config) (tone : List ℤ) (v : ℕ) :
    ∀ (l : List ℕ) (p : S × ℕ), ((l.foldl (noteStep cfg tone v) p).1).out = (p.1).out := by
  intro l
  induction l with
  | nil => intro p; rfl
  | cons a l ih =>
    intro p
    rw [List.foldl_cons, ih]
    unfold noteStep
    split_ifs <;> simp [addSilence_out, addList_out]

theorem foldl_noteStep_buf_notmem (cfg : Config) (tone : List ℤ) (v : ℕ) :
    ∀ (l : List ℕ) (p : S × ℕ) (c : ℕ), c ∉ l →
      ((l.foldl (noteStep cfg tone v) p).1).buf c = (p.1).buf c := by
  intro l
  induction l with
  | nil => intro p c _; rfl
  | cons a l ih =>
    intro p c hc
    rw [List.foldl_cons, ih _ _ (fun h => hc (List.mem_cons_of_mem _ h))]
    exact noteStep_buf_ne cfg tone v p a c (fun h => hc (h ▸ List.mem_cons_self _ _))

theorem noteSlot_out (cfg : Config) (tone : List ℤ) (seq : List ℕ) (n : ℕ) (s : S) :
    (noteSlot cfg tone seq n s).out = s.out :=
  foldl_noteStep_out cfg tone _ _ _

/-- When the tone length `tTone*sampleFrequency` is integral (otherwise
the program throws at startup), the silence appended instead of a tone
has exactly the tone table's sample count. -/
theorem silence_tTone (sf : ℕ) (h10 : 10 ∣ sf) : silenceCount sf tTone = sf / 10 := by
  unfold silenceCount
  obtain ⟨k, hk⟩ := h10
  subst hk
  have h1 : tTone * ((10 * k : ℕ) : ℚ) = (k : ℚ) := by
    unfold tTone
    push_cast
    ring
  rw [h1, Int.ceil_natCast]
  omega

theorem toneTable_length (cfg : Config) (sinT : ℕ → ℚ) :
    (toneTable cfg sinT).length = cfg.sampleFrequency / 10 := by
  simp [toneTable, createSine]

theorem chanOfFinger_lt (cfg : Config) (g : ℕ) (hg : g < 4) :
    chanOfFinger cfg g < nFingers cfg := by
  obtain ⟨sf, jp, it, td, ma, side, six⟩ := cfg
  cases six
  · simp [chanOfFinger, nFingers]
    omega
  · simp [chanOfFinger, nFingers]
    split_ifs <;> omega

/-- Full characterization of one note slot: the channel carrying the
finger selected by `seq[n]` receives the tone table, every other channel
below `nFingers` (stimulation channels and, in 6-channel mode, the
centre/LFE channels) receives a silence block of `tTone` seconds. -/
theorem noteSlot_buf_lt (cfg : Config) (tone : List ℤ) (seq : List ℕ) (n : ℕ)
    (s : S) (v : ℕ) (hv1 : 1 ≤ v) (hv4 : v ≤ 4) (hveq : seq.getD n 0 = v)
    (f : ℕ) (hf : f < nFingers cfg) :
    (noteSlot cfg tone seq n s).buf f =
      if f = chanOfFinger cfg (v - 1) then s.buf f ++ tone
      else s.buf f ++ List.replicate (silenceCount cfg.sampleFrequency tTone) 0 := by
  obtain ⟨sf, jp, it, td, ma, side, six⟩ := cfg
  unfold noteSlot
  rw [hveq]
  cases six
  · rw [show nFingers ⟨sf, jp, it, td, ma, side, false⟩ = 4 from rfl] at hf ⊢
    interval_cases v <;> interval_cases f <;>
      simp [show List.range 4 = [0,1,2,3] from rfl, List.foldl, noteStep,
            addSilence_buf, addList_buf, Function.update_apply, chanOfFinger]
  · rw [show nFingers ⟨sf, jp, it, td, ma, side, true⟩ = 6 from rfl] at hf ⊢
    interval_cases v <;> interval_cases f <;>
      simp [show List.range 6 = [0,1,2,3,4,5] from rfl, List.foldl, noteStep,
            addSilence_buf, addList_buf, Function.update_apply, chanOfFinger]

/-- In 6-channel mode channel 2 (front centre) always receives silence in
a note slot, whatever the drawn sequence value. -/
theorem noteSlot_buf_two (cfg : Config) (h6 : cfg.sixChan = true)
    (tone : List ℤ) (seq : List ℕ) (n : ℕ) (s : S) :
    (noteSlot cfg tone seq n s).buf 2 =
      s.buf 2 ++ List.replicate (silenceCount cfg.sampleFrequency tTone) 0 := by
  unfold noteSlot
  have hr : List.range (nFingers cfg) = [0,1] ++ 2 :: [3,4,5] := by
    rw [show nFingers cfg = 6 by simp [nFingers, h6]]
    rfl
  rw [hr, List.foldl_append, List.foldl_cons]
  rw [foldl_noteStep_buf_notmem _ _ _ [3,4,5] _ 2 (by norm_num)]
  have h2 : ∀ q : S × ℕ, ((noteStep cfg tone (seq.getD n 0) q 2).1).buf 2 =
      (q.1).buf 2 ++ List.replicate (silenceCount cfg.sampleFrequency tTone) 0 := by
    intro q
    unfold noteStep
    rw [if_pos ⟨h6, Or.inl rfl⟩]
    simp [addSilence_buf, Function.update_same]
  rw [h2, foldl_noteStep_buf_notmem _ _ _ [0,1] _ 2 (by norm_num)]

/-- In 6-channel mode channel 3 (low frequency) always receives silence
in a note slot, whatever the drawn sequence value. -/
theorem noteSlot_buf_three (cfg : Config) (h6 : cfg.sixChan = true)
    (tone : List ℤ) (seq : List ℕ) (n : ℕ) (s : S) :
    (noteSlot cfg tone seq n s).buf 3 =
      s.buf 3 ++ List.replicate (silenceCount cfg.sampleFrequency tTone) 0 := by
  unfold noteSlot
  have hr : List.range (nFingers cfg) = [0,1,2] ++ 3 :: [4,5] := by
    rw [show nFingers cfg = 6 by simp [nFingers, h6]]
    rfl
  rw [hr, List.foldl_append, List.foldl_cons]
  rw [foldl_noteStep_buf_notmem _ _ _ [4,5] _ 3 (by norm_num)]
  have h3 : ∀ q : S × ℕ, ((noteStep cfg tone (seq.getD n 0) q 3).1).buf 3 =
      (q.1).buf 3 ++ List.replicate (silenceCount cfg.sampleFrequency tTone) 0 := by
    intro q
    unfold noteStep
    rw [if_pos ⟨h6, Or.inr rfl⟩]
    simp [addSilence_buf, Function.update_same]
  rw [h3, foldl_noteStep_buf_notmem _ _ _ [0,1,2] _ 3 (by norm_num)]

/-- C1: in every ON-bar note slot, exactly one output channel -- the one
carrying the finger selected by the bar's permutation at that slot --
receives the tone burst; every other channel (stimulation or centre/LFE)
receives silence of exactly the tone's sample count. -/
theorem c1_one_tone_per_slot (cfg : Config) (sinT : ℕ → ℚ)
    (h10 : 10 ∣ cfg.sampleFrequency) (s : S) (sn n : ℕ) (hsn : sn < 24) (hn : n < 4) :
    ((noteSlot cfg (toneTable cfg sinT) (sequences.getD sn []) n s).buf
        (chanOfFinger cfg ((sequences.getD sn []).getD n 0 - 1)) =
      s.buf (chanOfFinger cfg ((sequences.getD sn []).getD n 0 - 1)) ++ toneTable cfg sinT) ∧
    ∀ f, f < nFingers cfg → f ≠ chanOfFinger cfg ((sequences.getD sn []).getD n 0 - 1) →
      (noteSlot cfg (toneTable cfg sinT) (sequences.getD sn []) n s).buf f =
        s.buf f ++ List.replicate (cfg.sampleFrequency / 10) 0 := by
  obtain ⟨hv1, hv4⟩ := sequences_getD_bound sn hsn n hn
  have hlt : chanOfFinger cfg ((sequences.getD sn []).getD n 0 - 1) < nFingers cfg :=
    chanOfFinger_lt cfg _ (by omega)
  constructor
  · rw [noteSlot_buf_lt cfg _ _ n s _ hv1 hv4 rfl _ hlt, if_pos rfl]
  · intro f hf hne
    rw [noteSlot_buf_lt cfg _ _ n s _ hv1 hv4 rfl f hf, if_neg hne,
        silence_tTone cfg.sampleFrequency h10]

/-- C1 witness: 22050 Hz scenario, first sequence, first note: finger 1
sounds on channel 0, so channel 1 receives 2205 zero samples. -/
theorem c1_one_tone_per_slot_witness :
    (10 ∣ cfgB.sampleFrequency) ∧ (0:ℕ) < 24 ∧ (0:ℕ) < 4 ∧ (1:ℕ) < nFingers cfgB ∧
    (noteSlot cfgB (toneTable cfgB sin0) (sequences.getD 0 []) 0 initS).buf 1 =
      initS.buf 1 ++ List.replicate (cfgB.sampleFrequency / 10) 0 := by
  refine ⟨by norm_num [cfgB], by norm_num, by norm_num, by norm_num [nFingers, cfgB], ?_⟩
  exact (c1_one_tone_per_slot cfgB sin0 (by norm_num [cfgB]) initS 0 0
    (by norm_num) (by norm_num)).2 1 (by norm_num [nFingers, cfgB])
    (by norm_num [sequences, chanOfFinger, cfgB])

/-!  Claim C7: bookkeeping of the frames actually flushed (jitter 0).  -/

theorem nFingers_pos (cfg : Config) : 0 < nFingers cfg := by
  unfold nFingers
  split_ifs <;> omega

/-- With jitter fraction 0 every drawn gap is exactly
`tCR4 - tTone = 1/15` seconds. -/
theorem gap0 (cfg : Config) (hjp : cfg.jitterPct = 0) (v : ℚ) :
    tCR4 - tTone + jitterDraw cfg v = 1/15 := by
  unfold jitterDraw jMax
  rw [hjp]
  norm_num [tCR4, tCR, fCR, tTone]

/-- Every channel below `nFingers` gains exactly one tone length of
samples in a note slot. -/
theorem noteSlot_buf_len (cfg : Config) (tone : List ℤ) (seq : List ℕ) (n : ℕ)
    (s : S) (v : ℕ) (hv1 : 1 ≤ v) (hv4 : v ≤ 4) (hveq : seq.getD n 0 = v)
    (h10 : 10 ∣ cfg.sampleFrequency) (htone : tone.length = cfg.sampleFrequency / 10)
    (f : ℕ) (hf : f < nFingers cfg) :
    ((noteSlot cfg tone seq n s).buf f).length =
      (s.buf f).length + cfg.sampleFrequency / 10 := by
  rw [noteSlot_buf_lt cfg tone seq n s v hv1 hv4 hveq f hf]
  split_ifs <;> simp [htone, silence_tTone _ h10]

theorem gapFill_buf (cfg : Config) (g : ℚ) (s : S) (c : ℕ) :
    (gapFill cfg g s).buf c =
      if c < nFingers cfg then
        s.buf c ++ List.replicate (silenceCount cfg.sampleFrequency g) 0
      else s.buf c :=
  foldl_silence_buf cfg g (nFingers cfg) s c

theorem gapFill_out (cfg : Config) (g : ℚ) (s : S) : (gapFill cfg g s).out = s.out :=
  foldl_silence_out cfg g _ s

theorem offBar_buf (cfg : Config) (s : S) (c : ℕ) :
    (offBar cfg s).buf c =
      if c < 4 then s.buf c ++ List.replicate (silenceCount cfg.sampleFrequency tCR) 0
      else s.buf c :=
  foldl_silence_buf cfg tCR 4 s c

theorem offBar_out (cfg : Config) (s : S) : (offBar cfg s).out = s.out :=
  foldl_silence_out cfg tCR _ s

/-- A fold whose every step grows channel 0 by `k` samples and leaves the
flushed output untouched. -/
theorem foldl_const_growth {β : Type} (g : S → β → S) (k : ℕ) :
    ∀ (l : List β),
      (∀ (q : S) (b : β), b ∈ l →
        ((g q b).buf 0).length = (q.buf 0).length + k ∧ (g q b).out = q.out) →
      ∀ s : S, ((l.foldl g s).buf 0).length = (s.buf 0).length + l.length * k ∧
        (l.foldl g s).out = s.out := by
  intro l
  induction l with
  | nil => intro _ s; simp
  | cons a l ih =>
    intro hg s
    rw [List.foldl_cons]
    obtain ⟨hlen, hout⟩ := ih (fun q b hb => hg q b (List.mem_cons_of_mem _ hb)) (g s a)
    obtain ⟨hlen0, hout0⟩ := hg s a (List.mem_cons_self _ _)
    refine ⟨?_, hout.trans hout0⟩
    rw [hlen, hlen0, List.length_cons]
    ring

/-- One note of an ON bar under the all-zeros random stream: channel 0
gains a tone length plus a 1/15-second gap; nothing is flushed. -/
theorem oneNote0 (cfg : Config) (hjp : cfg.jitterPct = 0)
    (h10 : 10 ∣ cfg.sampleFrequency) (tone : List ℤ)
    (htone : tone.length = cfg.sampleFrequency / 10)
    (n v : ℕ) (hv1 : 1 ≤ v) (hv4 : v ≤ 4)
    (hveq : ([1,2,3,4] : List ℕ).getD n 0 = v) (q : S) :
    ((gapFill cfg
        (tCR4 - tTone + jitterDraw cfg (u0 (noteSlot cfg tone [1,2,3,4] n q).rnd))
        { noteSlot cfg tone [1,2,3,4] n q with
            rnd := (noteSlot cfg tone [1,2,3,4] n q).rnd + 1 }).buf 0).length =
      (q.buf 0).length +
        (cfg.sampleFrequency / 10 + silenceCount cfg.sampleFrequency (1/15)) ∧
    (gapFill cfg
        (tCR4 - tTone + jitterDraw cfg (u0 (noteSlot cfg tone [1,2,3,4] n q).rnd))
        { noteSlot cfg tone [1,2,3,4] n q with
            rnd := (noteSlot cfg tone [1,2,3,4] n q).rnd + 1 }).out = q.out := by
  constructor
  · rw [gapFill_buf, if_pos (nFingers_pos cfg), gap0 cfg hjp]
    have hb : ({ noteSlot cfg tone [1,2,3,4] n q with
        rnd := (noteSlot cfg tone [1,2,3,4] n q).rnd + 1 } : S).buf 0 =
        (noteSlot cfg tone [1,2,3,4] n q).buf 0 := rfl
    rw [List.length_append, hb,
        noteSlot_buf_len cfg tone [1,2,3,4] n q v hv1 hv4 hveq h10 htone 0 (nFingers_pos cfg)]
    simp [Nat.add_assoc]
  · rw [gapFill_out]
    exact noteSlot_out cfg tone [1,2,3,4] n q

/-- One ON bar under the all-zeros random stream: sequence 0 is drawn and
channel 0 gains 4 notes of tone+gap; nothing is flushed. -/
theorem onBar0_len (cfg : Config) (hjp : cfg.jitterPct = 0)
    (h10 : 10 ∣ cfg.sampleFrequency) (tone : List ℤ)
    (htone : tone.length = cfg.sampleFrequency / 10) (s : S) :
    ((onBar cfg u0 tone s).buf 0).length =
      (s.buf 0).length +
        4 * (cfg.sampleFrequency / 10 + silenceCount cfg.sampleFrequency (1/15)) ∧
    (onBar cfg u0 tone s).out = s.out := by
  have hsq : sequences.getD ((⌊u0 s.rnd * 24⌋).toNat) [] = [1,2,3,4] := by
    norm_num [u0]
    rfl
  simp only [onBar, hsq]
  have h := foldl_const_growth
    (fun s n => gapFill cfg
      (tCR4 - tTone + jitterDraw cfg (u0 (noteSlot cfg tone [1,2,3,4] n s).rnd))
      { noteSlot cfg tone [1,2,3,4] n s with
          rnd := (noteSlot cfg tone [1,2,3,4] n s).rnd + 1 })
    (cfg.sampleFrequency / 10 + silenceCount cfg.sampleFrequency (1/15))
    (List.range 4)
    (by
      intro q b hb
      have hb4 : b < 4 := List.mem_range.mp hb
      interval_cases b
      · exact oneNote0 cfg hjp h10 tone htone 0 1 (by norm_num) (by norm_num) rfl q
      · exact oneNote0 cfg hjp h10 tone htone 1 2 (by norm_num) (by norm_num) rfl q
      · exact oneNote0 cfg hjp h10 tone htone 2 3 (by norm_num) (by norm_num) rfl q
      · exact oneNote0 cfg hjp h10 tone htone 3 4 (by norm_num) (by norm_num) rfl q)
    { s with rnd := s.rnd + 1 }
  simpa using h

/-- One phrase under the all-zeros stream: the flushed output grows by
`(existing channel-0 samples + phraseFrames) * nFingers` samples and all
buffers come back empty. -/
theorem phrase0_len (cfg : Config) (hjp : cfg.jitterPct = 0)
    (h10 : 10 ∣ cfg.sampleFrequency) (tone : List ℤ)
    (htone : tone.length = cfg.sampleFrequency / 10) (s : S) :
    ((phrase cfg u0 tone s).out).length =
      s.out.length + ((s.buf 0).length + phraseFrames cfg.sampleFrequency) * nFingers cfg ∧
    ∀ f, (phrase cfg u0 tone s).buf f = [] := by
  unfold phrase
  refine ⟨?_, fun f => rfl⟩
  rw [flush_out_length]
  unfold phraseBody
  simp only [nBlocksON, nBlocksOFF]
  obtain ⟨hONl, hONo⟩ := foldl_const_growth (fun s (_ : ℕ) => onBar cfg u0 tone s)
      (4 * (cfg.sampleFrequency / 10 + silenceCount cfg.sampleFrequency (1/15)))
      (List.range 3)
      (fun q _ _ => onBar0_len cfg hjp h10 tone htone q) s
  obtain ⟨hOFFl, hOFFo⟩ := foldl_const_growth (fun s (_ : ℕ) => offBar cfg s)
      (silenceCount cfg.sampleFrequency tCR) (List.range 2)
      (fun q _ _ => ⟨by rw [offBar_buf]; simp, offBar_out cfg q⟩)
      ((List.range 3).foldl (fun s (_ : ℕ) => onBar cfg u0 tone s) s)
  rw [hOFFo, hONo, hOFFl, hONl]
  unfold phraseFrames
  simp only [List.length_range]
  ring

/-- The full phrase loop under the all-zeros stream: each iteration adds
`phraseFrames * nFingers` flushed samples. -/
theorem makePhrasesAux0 (cfg : Config) (hjp : cfg.jitterPct = 0)
    (h10 : 10 ∣ cfg.sampleFrequency) (tone : List ℤ)
    (htone : tone.length = cfg.sampleFrequency / 10) :
    ∀ (fuel : ℕ) (t : ℚ) (s : S), s.buf 0 = [] →
      ((makePhrasesAux cfg u0 tone fuel t s).out).length =
        s.out.length + phraseFrames cfg.sampleFrequency * nFingers cfg *
          phrasesFrom (cfg.targetDuration : ℚ) fuel t ∧
      (makePhrasesAux cfg u0 tone fuel t s).buf 0 = [] := by
  intro fuel
  induction fuel with
  | zero => intro t s hs; simp [makePhrasesAux, phrasesFrom, hs]
  | succ n ih =>
    intro t s hs
    simp only [makePhrasesAux, phrasesFrom]
    obtain ⟨hpl, hpb⟩ := phrase0_len cfg hjp h10 tone htone s
    by_cases h : t ≤ (cfg.targetDuration : ℚ)
    · rw [if_pos h, if_pos h]
      obtain ⟨hl, hb⟩ := ih (t + 5 * tCR) (phrase cfg u0 tone s) (hpb 0)
      refine ⟨?_, hb⟩
      rw [hl, hpl, hs]
      simp only [List.length_nil]
      ring
    · rw [if_neg h, if_neg h]
      simp [hs]

theorem phrasesFrom_stop (T : ℚ) (fuel : ℕ) (t : ℚ) (h : ¬ t ≤ T) :
    phrasesFrom T fuel t = 0 := by
  cases fuel <;> simp [phrasesFrom, h]

/-- Closed form of the loop count: with enough fuel the loop runs
`⌊(T-t)·3/10⌋ + 1` times from nominal time `t ≤ T`. -/
theorem phrasesFrom_eq (T : ℚ) :
    ∀ (fuel : ℕ) (t : ℚ), t ≤ T → (⌊(T - t) * (3/10)⌋ + 1).toNat ≤ fuel →
      phrasesFrom T fuel t = (⌊(T - t) * (3/10)⌋ + 1).toNat := by
  intro fuel
  induction fuel with
  | zero =>
    intro t ht hfuel
    have h0 : 0 ≤ ⌊(T - t) * (3/10)⌋ :=
      Int.floor_nonneg.mpr (by nlinarith)
    omega
  | succ n ih =>
    intro t ht hfuel
    simp only [phrasesFrom, if_pos ht]
    have hstep : (T - (t + 5 * tCR)) * (3/10) = (T - t) * (3/10) - 1 := by
      norm_num [tCR, fCR]
      ring
    by_cases h2 : t + 5 * tCR ≤ T
    · have key : ⌊(T - (t + 5 * tCR)) * (3/10)⌋ = ⌊(T - t) * (3/10)⌋ - 1 := by
        rw [hstep, Int.floor_sub_one]
      have h1 : (1:ℚ) ≤ (T - t) * (3/10) := by
        have h53 : (5:ℚ) * tCR = 10/3 := by norm_num [tCR, fCR]
        rw [h53] at h2
        nlinarith
      have h1z : 1 ≤ ⌊(T - t) * (3/10)⌋ := Int.le_floor.mpr (by exact_mod_cast h1)
      rw [ih (t + 5 * tCR) h2 (by rw [key]; omega), key]
      omega
    · rw [phrasesFrom_stop T n _ h2]
      have hfl0 : ⌊(T - t) * (3/10)⌋ = 0 := by
        rw [Int.floor_eq_zero_iff]
        constructor
        · nlinarith
        · have h53 : (5:ℚ) * tCR = 10/3 := by norm_num [tCR, fCR]
          rw [h53] at h2
          push_neg at h2
          nlinarith
      rw [hfl0]
      rfl

theorem phrasesFrom_closed (T : ℚ) (h0 : 0 ≤ T) (hub : T ≤ 14400) :
    phrasesFrom T 4322 0 = (⌊T * (3/10)⌋).toNat + 1 := by
  have hm : ⌊T * (3/10)⌋ ≤ 4320 := by
    have h1 : T * (3/10) ≤ (4320:ℚ) := by nlinarith
    calc ⌊T * (3/10)⌋ ≤ ⌊(4320:ℚ)⌋ := Int.floor_mono h1
    _ = 4320 := by norm_num
  have hnn : 0 ≤ ⌊T * (3/10)⌋ := Int.floor_nonneg.mpr (by nlinarith)
  have := phrasesFrom_eq T 4322 0 h0 (by rw [sub_zero]; omega)
  rw [sub_zero] at this
  omega

theorem headerBytes_length (cfg : Config) : (headerBytes cfg).length = 68 := by
  simp [headerBytes, hb1, hb2, riffB, waveB, fmtB, guidB, dataTagB, u32le, u16le]

/-- Actual byte length of the produced file for a deterministic run
(jitter 0, no intro): 68 header bytes plus 2 bytes per flushed sample,
with `⌊3T/10⌋ + 1` phrases actually run by the loop. -/
theorem fileBytes0_length (cfg : Config) (sinT sinI : ℕ → ℚ)
    (hjp : cfg.jitterPct = 0) (h10 : 10 ∣ cfg.sampleFrequency)
    (hintro : cfg.intro = 0) (hT2 : cfg.targetDuration ≤ 14400) :
    (fileBytes cfg sinT sinI u0).length =
      68 + 2 * (phraseFrames cfg.sampleFrequency * nFingers cfg *
        ((⌊(cfg.targetDuration : ℚ) * (3/10)⌋).toNat + 1)) := by
  unfold fileBytes
  rw [List.length_append, headerBytes_length, dataBytes_length]
  unfold runProgram makePhrases
  rw [show makeIntro cfg sinI initS = initS by unfold makeIntro; rw [if_pos hintro]]
  obtain ⟨hl, -⟩ := makePhrasesAux0 cfg hjp h10 (toneTable cfg sinT)
    (toneTable_length cfg sinT) 4322 0 initS rfl
  rw [hl, phrasesFrom_closed _ (by positivity) (by exact_mod_cast hT2)]
  simp [initS]

/-- C7 amended: the actual file length is header size plus
`2 * channelCount * phraseFrames * (⌊3T/10⌋ + 1)` bytes -- the loop runs
`⌊3T/10⌋ + 1` phrases, not the `round(3T/10)` phrases the header
declares. -/
theorem c7_actual_file_length (cfg : Config) (sinT sinI : ℕ → ℚ)
    (hjp : cfg.jitterPct = 0) (h10 : 10 ∣ cfg.sampleFrequency)
    (hintro : cfg.intro = 0) (hT2 : cfg.targetDuration ≤ 14400) :
    (fileBytes cfg sinT sinI u0).length =
      68 + 2 * (phraseFrames cfg.sampleFrequency * nFingers cfg *
        ((⌊(cfg.targetDuration : ℚ) * (3/10)⌋).toNat + 1)) :=
  fileBytes0_length cfg sinT sinI hjp h10 hintro hT2

/-- C7 amended witness: at 1000 Hz, duration 1 s, the loop runs one
phrase of 3338 frames. -/
theorem c7_actual_file_length_witness :
    cfg7.jitterPct = 0 ∧ 10 ∣ cfg7.sampleFrequency ∧ cfg7.intro = 0 ∧
    cfg7.targetDuration ≤ 14400 ∧
    (fileBytes cfg7 sin0 sin0 u0).length =
      68 + 2 * (phraseFrames cfg7.sampleFrequency * nFingers cfg7 *
        ((⌊(cfg7.targetDuration : ℚ) * (3/10)⌋).toNat + 1)) :=
  ⟨rfl, by norm_num [cfg7], rfl, by norm_num [cfg7],
    c7_actual_file_length cfg7 sin0 sin0 rfl (by norm_num [cfg7]) rfl (by norm_num [cfg7])⟩

/-- C7 counterexample: at 1000 Hz and 1 s target the header declares a
0-byte data chunk (round(0.3) = 0 phrases) but the loop still runs one
phrase (⌊0.3⌋ + 1 = 1), writing 26704 data bytes, so the file length is
not header size + declared data size. -/
theorem c7_declared_vs_actual_mismatch :
    (fileBytes cfg7 sin0 sin0 u0).length ≠ 68 + decode32 (headerBytes cfg7) 64 := by
  have hg : silenceCount 1000 (1/15) = 67 := by
    unfold silenceCount
    have h : ⌈(1/15 : ℚ) * ((1000:ℕ) : ℚ)⌉ = 67 := by
      rw [Int.ceil_eq_iff] <;> norm_num
    rw [h]
    rfl
  have ho : silenceCount 1000 tCR = 667 := by
    unfold silenceCount
    have h : ⌈tCR * ((1000:ℕ) : ℚ)⌉ = 667 := by
      rw [Int.ceil_eq_iff] <;> norm_num [tCR, fCR]
    rw [h]
    rfl
  have hact : (fileBytes cfg7 sin0 sin0 u0).length = 26772 := by
    rw [fileBytes0_length cfg7 sin0 sin0 rfl (by norm_num [cfg7]) rfl (by norm_num [cfg7])]
    have hfl : ⌊(cfg7.targetDuration : ℚ) * (3/10)⌋ = 0 := by
      rw [Int.floor_eq_zero_iff]
      constructor <;> norm_num [cfg7]
    rw [hfl]
    norm_num [phraseFrames, nFingers, cfg7, hg, ho]
  have hdecl : decode32 (headerBytes cfg7) 64 = 0 := by
    rw [decode32_header]
    have hnp : nPhrasesZ cfg7 = 0 := by
      unfold nPhrasesZ
      have hq : ((cfg7.targetDuration : ℚ) /
          (tCR * ((nBlocksOFF:ℚ) + (nBlocksON:ℚ)))) = 3/10 := by
        norm_num [cfg7, tCR, fCR, nBlocksON, nBlocksOFF]
      rw [hq, round_eq, show (3/10 : ℚ) + 1/2 = 4/5 by norm_num, Int.floor_eq_zero_iff]
      constructor <;> norm_num
    have hds : dataSizeQ cfg7 = 0 := by
      unfold dataSizeQ numFramesQ durationQ
      rw [hnp]
      norm_num [cfg7]
    rw [hds]
    unfold jsToUint32
    norm_num
  rw [hact, hdecl]
  norm_num

/-!  Claim C3: centre and LFE channels in 6-channel mode.  -/

theorem foldl_pres {β : Type} (P : S → Prop) (g : S → β → S) :
    ∀ (l : List β), (∀ s b, b ∈ l → P s → P (g s b)) → ∀ s, P s → P (l.foldl g s) := by
  intro l
  induction l with
  | nil => intro _ s hs; exact hs
  | cons a l ih =>
    intro hg s hs
    exact ih (fun s b hb => hg s b (List.mem_cons_of_mem _ hb)) _
      (hg s a (List.mem_cons_self _ _) hs)

theorem foldl_buf_pres {β : Type} (g : S → β → S) (c : ℕ) :
    ∀ (l : List β), (∀ s b, b ∈ l → (g s b).buf c = s.buf c) →
      ∀ s, (l.foldl g s).buf c = s.buf c := by
  intro l
  induction l with
  | nil => intro _ s; rfl
  | cons a l ih =>
    intro hg s
    rw [List.foldl_cons, ih (fun s b hb => hg s b (List.mem_cons_of_mem _ hb)),
        hg s a (List.mem_cons_self _ _)]

theorem foldl_out_pres {β : Type} (g : S → β → S) :
    ∀ (l : List β), (∀ s b, b ∈ l → (g s b).out = s.out) →
      ∀ s, (l.foldl g s).out = s.out := by
  intro l
  induction l with
  | nil => intro _ s; rfl
  | cons a l ih =>
    intro hg s
    rw [List.foldl_cons, ih (fun s b hb => hg s b (List.mem_cons_of_mem _ hb)),
        hg s a (List.mem_cons_self _ _)]

theorem all_zero_append (l1 l2 : List ℤ) (h1 : ∀ x ∈ l1, x = 0)
    (h2 : ∀ x ∈ l2, x = 0) : ∀ x ∈ l1 ++ l2, x = 0 := by
  intro x hx
  rcases List.mem_append.mp hx with h | h
  · exact h1 x h
  · exact h2 x h

theorem all_zero_replicate (k : ℕ) : ∀ x ∈ List.replicate k (0:ℤ), x = 0 :=
  fun _ hx => List.eq_of_mem_replicate hx

theorem getD_all_zero (l : List ℤ) (h : ∀ x ∈ l, x = 0) (i : ℕ) : l.getD i 0 = 0 := by
  by_cases hi : i < l.length
  · rw [List.getD_eq_getElem l 0 hi]
    exact h _ (List.getElem_mem hi)
  · exact List.getD_eq_default l 0 (by omega)

theorem flush_zero6 (cfg : Config) (h6 : cfg.sixChan = true) (s : S)
    (hz : ZeroOut6 s) : ZeroOut6 (flush cfg s) := by
  obtain ⟨ho, hl, h2, h3⟩ := hz
  have hnf : nFingers cfg = 6 := by simp [nFingers, h6]
  refine ⟨?_, ?_, by simp [flush], by simp [flush]⟩
  · intro j hj
    show (s.out ++ interleaveFrames s.buf (nFingers cfg) (s.buf 0).length).getD j 0 = 0
    by_cases hjl : j < s.out.length
    · rw [List.getD_append _ _ _ _ hjl]
      exact ho j hj
    · by_cases hjb : j < s.out.length + (s.buf 0).length * 6
      · rw [List.getD_append_right _ _ _ _ (by omega), hnf,
            interleaveFrames_getD _ _ _ _ (by omega)]
        have hmod : (j - s.out.length) % 6 = j % 6 := by omega
        rw [hmod]
        rcases hj with hj2 | hj2 <;> rw [hj2]
        · rw [getD_all_zero _ h2]
          decide
        · rw [getD_all_zero _ h3]
          decide
      · rw [List.getD_eq_default]
        rw [List.length_append, interleaveFrames_length, hnf]
        omega
  · show (s.out ++ interleaveFrames s.buf (nFingers cfg) (s.buf 0).length).length % 6 = 0
    rw [List.length_append, interleaveFrames_length, hnf]
    omega

theorem noteSlot_zero6 (cfg : Config) (h6 : cfg.sixChan = true) (tone : List ℤ)
    (seq : List ℕ) (n : ℕ) (s : S) (hz : ZeroOut6 s) :
    ZeroOut6 (noteSlot cfg tone seq n s) := by
  obtain ⟨ho, hl, h2, h3⟩ := hz
  refine ⟨?_, ?_, ?_, ?_⟩
  · intro j hj
    rw [noteSlot_out]
    exact ho j hj
  · rw [noteSlot_out]
    exact hl
  · rw [noteSlot_buf_two cfg h6]
    exact all_zero_append _ _ h2 (all_zero_replicate _)
  · rw [noteSlot_buf_three cfg h6]
    exact all_zero_append _ _ h3 (all_zero_replicate _)

theorem gapFill_zero6 (cfg : Config) (g : ℚ) (s : S) (hz : ZeroOut6 s) :
    ZeroOut6 (gapFill cfg g s) := by
  obtain ⟨ho, hl, h2, h3⟩ := hz
  refine ⟨?_, ?_, ?_, ?_⟩
  · intro j hj
    rw [gapFill_out]
    exact ho j hj
  · rw [gapFill_out]
    exact hl
  · rw [gapFill_buf]
    split_ifs
    · exact all_zero_append _ _ h2 (all_zero_replicate _)
    · exact h2
  · rw [gapFill_buf]
    split_ifs
    · exact all_zero_append _ _ h3 (all_zero_replicate _)
    · exact h3

theorem offBar_zero6 (cfg : Config) (s : S) (hz : ZeroOut6 s) :
    ZeroOut6 (offBar cfg s) := by
  obtain ⟨ho, hl, h2, h3⟩ := hz
  refine ⟨?_, ?_, ?_, ?_⟩
  · intro j hj
    rw [offBar_out]
    exact ho j hj
  · rw [offBar_out]
    exact hl
  · rw [offBar_buf, if_pos (by norm_num)]
    exact all_zero_append _ _ h2 (all_zero_replicate _)
  · rw [offBar_buf, if_pos (by norm_num)]
    exact all_zero_append _ _ h3 (all_zero_replicate _)

theorem onBar_zero6 (cfg : Config) (h6 : cfg.sixChan = true) (u : ℕ → ℚ)
    (tone : List ℤ) (s : S) (hz : ZeroOut6 s) : ZeroOut6 (onBar cfg u tone s) := by
  simp only [onBar]
  refine foldl_pres ZeroOut6 _ (List.range 4) ?_ _ ?_
  · intro q b _ hq
    exact gapFill_zero6 cfg _ _ (noteSlot_zero6 cfg h6 tone _ b q hq)
  · exact hz

theorem phrase_zero6 (cfg : Config) (h6 : cfg.sixChan = true) (u : ℕ → ℚ)
    (tone : List ℤ) (s : S) (hz : ZeroOut6 s) : ZeroOut6 (phrase cfg u tone s) := by
  unfold phrase phraseBody
  apply flush_zero6 cfg h6
  refine foldl_pres ZeroOut6 _ _ (fun q b _ hq => offBar_zero6 cfg q hq) _ ?_
  exact foldl_pres ZeroOut6 _ _ (fun q b _ hq => onBar_zero6 cfg h6 u tone q hq) _ hz

theorem makePhrasesAux_zero6 (cfg : Config) (h6 : cfg.sixChan = true)
    (u : ℕ → ℚ) (tone : List ℤ) :
    ∀ (fuel : ℕ) (t : ℚ) (s : S), ZeroOut6 s →
      ZeroOut6 (makePhrasesAux cfg u tone fuel t s) := by
  intro fuel
  induction fuel with
  | zero => intro t s hs; exact hs
  | succ n ih =>
    intro t s hs
    simp only [makePhrasesAux]
    split_ifs with h
    · exact ih _ _ (phrase_zero6 cfg h6 u tone s hs)
    · exact hs

theorem initS_zero6 : ZeroOut6 initS :=
  ⟨fun _ _ => rfl, rfl, by simp [initS], by simp [initS]⟩

/-- C3 amended: in 6-channel mode with no intro, every sample the program
flushes to a channel-2 (front centre) or channel-3 (LFE) position is
zero, for any random stream and sine oracles.  (With introSeconds > 0
this fails: the intro pass plays the check tone on every channel,
including centre and LFE -- see the counterexample.) -/
theorem c3_center_lfe_silent_no_intro (cfg : Config) (sinT sinI u : ℕ → ℚ)
    (h6 : cfg.sixChan = true) (h0 : cfg.intro = 0) :
    ∀ j : ℕ, j % 6 = 2 ∨ j % 6 = 3 →
      ((runProgram cfg sinT sinI u).out).getD j 0 = 0 := by
  have hz : ZeroOut6 (runProgram cfg sinT sinI u) := by
    unfold runProgram makePhrases
    rw [show makeIntro cfg sinI initS = initS by unfold makeIntro; rw [if_pos h0]]
    exact makePhrasesAux_zero6 cfg h6 u _ 4322 0 _ initS_zero6
  exact fun j hj => hz.1 j hj

/-- C3 amended witness: a tiny 6-channel no-intro run, sample position 2
(channel 2 of frame 0). -/
theorem c3_center_lfe_silent_no_intro_witness :
    cfgTiny6.sixChan = true ∧ cfgTiny6.intro = 0 ∧
    ((2:ℕ) % 6 = 2 ∨ (2:ℕ) % 6 = 3) ∧
    ((runProgram cfgTiny6 sin0 sin0 u0).out).getD 2 0 = 0 :=
  ⟨rfl, rfl, Or.inl rfl,
    c3_center_lfe_silent_no_intro cfgTiny6 sin0 sin0 u0 rfl rfl 2 (Or.inl rfl)⟩

/-!  C3 counterexample machinery: what the intro pass writes.  -/

theorem introFillChan_buf_ne (cfg : Config) (tn : List ℤ) (f c : ℕ) (hc : c ≠ f)
    (s : S) : (introFillChan cfg tn f s).buf c = s.buf c := by
  unfold introFillChan
  refine foldl_buf_pres _ c _ ?_ s
  intro q b _
  split_ifs <;> simp [addList_buf, addSilence_buf, Function.update_apply, hc]

theorem introFillChan_out (cfg : Config) (tn : List ℤ) (f : ℕ) (s : S) :
    (introFillChan cfg tn f s).out = s.out := by
  unfold introFillChan
  refine foldl_out_pres _ _ ?_ s
  intro q b _
  split_ifs <;> simp [addList_out, addSilence_out]

theorem onBar_out (cfg : Config) (u : ℕ → ℚ) (tone : List ℤ) (s : S) :
    (onBar cfg u tone s).out = s.out := by
  simp only [onBar]
  refine foldl_out_pres _ _ ?_ _
  intro q b _
  rw [gapFill_out]
  exact noteSlot_out cfg tone _ b q

theorem phraseBody_out (cfg : Config) (u : ℕ → ℚ) (tone : List ℤ) (s : S) :
    (phraseBody cfg u tone s).out = s.out := by
  unfold phraseBody
  rw [foldl_out_pres _ _ (fun q b _ => offBar_out cfg q),
      foldl_out_pres _ _ (fun q b _ => onBar_out cfg u tone q)]

/-- `makePhrases` only ever appends to the flushed stream. -/
theorem makePhrasesAux_out_extend (cfg : Config) (u : ℕ → ℚ) (tone : List ℤ) :
    ∀ (fuel : ℕ) (t : ℚ) (s : S),
      ∃ r, (makePhrasesAux cfg u tone fuel t s).out = s.out ++ r := by
  intro fuel
  induction fuel with
  | zero => intro t s; exact ⟨[], (List.append_nil _).symm⟩
  | succ n ih =>
    intro t s
    simp only [makePhrasesAux]
    split_ifs with h
    · obtain ⟨r, hr⟩ := ih (t + 5 * tCR) (phrase cfg u tone s)
      have hp : (phrase cfg u tone s).out =
          s.out ++ interleaveFrames (phraseBody cfg u tone s).buf (nFingers cfg)
            ((phraseBody cfg u tone s).buf 0).length := by
        show (phraseBody cfg u tone s).out ++ _ = _
        rw [phraseBody_out]
      exact ⟨_, by rw [hr, hp, List.append_assoc]⟩
    · exact ⟨[], (List.append_nil _).symm⟩

theorem cfgSixIntro_sil :
    silenceCount cfgSixIntro.sampleFrequency ((cfgSixIntro.intro : ℚ)) = 1000 := by
  unfold silenceCount
  have h : ⌈((cfgSixIntro.intro : ℚ)) * ((cfgSixIntro.sampleFrequency : ℕ) : ℚ)⌉ = 1000 := by
    rw [Int.ceil_eq_iff] <;> norm_num [cfgSixIntro]
  rw [h]
  rfl

theorem map_const_range (c : ℤ) : ∀ n : ℕ,
    (List.range n).map (fun _ => c) = List.replicate n c := by
  intro n
  induction n with
  | zero => rfl
  | succ k ih =>
    rw [List.range_succ, List.map_append, ih, show ([k].map fun _ => c) = [c] from rfl,
        ← List.replicate_succ']

theorem cfgSixIntro_tn :
    createSine sin1 cfgSixIntro.maxAmp (cfgSixIntro.intro * cfgSixIntro.sampleFrequency) =
      List.replicate 1000 1 := by
  unfold createSine
  have hj : ∀ i : ℕ, jsRound ((cfgSixIntro.maxAmp : ℚ) * sin1 i) = 1 := by
    intro i
    unfold jsRound sin1
    rw [show ((cfgSixIntro.maxAmp : ℕ) : ℚ) * 1 + 1/2 = 3/2 by norm_num [cfgSixIntro]]
    rw [Int.floor_eq_iff] <;> norm_num
  simp only [hj]
  rw [show cfgSixIntro.intro * cfgSixIntro.sampleFrequency = 1000 from rfl]
  exact map_const_range 1 1000

theorem introFill_two : ∀ q : S,
    (introFillChan cfgSixIntro (List.replicate 1000 1) 2 q).buf 2 =
      q.buf 2 ++ List.replicate 1000 0 ++ List.replicate 1000 0 ++
        List.replicate 1000 1 ++ List.replicate 1000 0 ++ List.replicate 1000 0 ++
        List.replicate 1000 0 := by
  intro q
  unfold introFillChan
  rw [show List.range (nFingers cfgSixIntro) = [0,1,2,3,4,5] from rfl]
  simp only [List.foldl_cons, List.foldl_nil]
  norm_num [addList_buf, addSilence_buf, Function.update_apply, cfgSixIntro_sil]

theorem introFill_zero : ∀ q : S,
    (introFillChan cfgSixIntro (List.replicate 1000 1) 0 q).buf 0 =
      q.buf 0 ++ List.replicate 1000 1 ++ List.replicate 1000 0 ++
        List.replicate 1000 0 ++ List.replicate 1000 0 ++ List.replicate 1000 0 ++
        List.replicate 1000 0 := by
  intro q
  unfold introFillChan
  rw [show List.range (nFingers cfgSixIntro) = [0,1,2,3,4,5] from rfl]
  simp only [List.foldl_cons, List.foldl_nil]
  norm_num [addList_buf, addSilence_buf, Function.update_apply, cfgSixIntro_sil]

/-- The intro pass of the 6-channel 1-second-intro run flushes 36000
samples, and the sample at position 12002 -- channel 2 of frame 2000,
inside channel 2's intro-tone window -- is 1, not 0. -/
theorem makeIntro_cfgSixIntro :
    ((makeIntro cfgSixIntro sin1 initS).out).length = 36000 ∧
    ((makeIntro cfgSixIntro sin1 initS).out).getD 12002 0 = 1 := by
  unfold makeIntro
  rw [if_neg (by norm_num [cfgSixIntro]), cfgSixIntro_tn]
  set st1 := (List.range (nFingers cfgSixIntro)).foldl
    (fun s f => introFillChan cfgSixIntro (List.replicate 1000 1) f s) initS with hst1
  have hout : st1.out = [] := by
    rw [hst1]
    exact foldl_out_pres _ _ (fun q b _ => introFillChan_out cfgSixIntro _ b q) initS
  have hb2 : st1.buf 2 =
      List.replicate 1000 0 ++ List.replicate 1000 0 ++ List.replicate 1000 1 ++
        List.replicate 1000 0 ++ List.replicate 1000 0 ++ List.replicate 1000 0 := by
    rw [hst1, show List.range (nFingers cfgSixIntro) = [0,1] ++ 2 :: [3,4,5] from rfl,
        List.foldl_append, List.foldl_cons]
    rw [foldl_buf_pres _ 2 [3,4,5] (fun q b hb => introFillChan_buf_ne cfgSixIntro _ b 2
      (by simp at hb; omega) q)]
    rw [introFill_two]
    rw [foldl_buf_pres _ 2 [0,1] (fun q b hb => introFillChan_buf_ne cfgSixIntro _ b 2
      (by simp at hb; omega) q)]
    rw [show initS.buf 2 = [] from rfl, List.nil_append]
  have hb0 : (st1.buf 0).length = 6000 := by
    have h0 : st1.buf 0 =
        List.replicate 1000 1 ++ List.replicate 1000 0 ++ List.replicate 1000 0 ++
          List.replicate 1000 0 ++ List.replicate 1000 0 ++ List.replicate 1000 0 := by
      rw [hst1, show List.range (nFingers cfgSixIntro) = [] ++ 0 :: [1,2,3,4,5] from rfl,
          List.foldl_append, List.foldl_cons]
      rw [foldl_buf_pres _ 0 [1,2,3,4,5] (fun q b hb => introFillChan_buf_ne cfgSixIntro _ b 0
        (by simp at hb; omega) q)]
      rw [introFill_zero, List.foldl_nil]
      rw [show initS.buf 0 = [] from rfl, List.nil_append]
    rw [h0]
    simp only [List.length_append, List.length_replicate]
  constructor
  · rw [show (flush cfgSixIntro st1).out =
        st1.out ++ interleaveFrames st1.buf (nFingers cfgSixIntro) ((st1.buf 0).length)
        from rfl, hout, List.nil_append, interleaveFrames_length, hb0]
    rfl
  · rw [show (flush cfgSixIntro st1).out =
        st1.out ++ interleaveFrames st1.buf (nFingers cfgSixIntro) ((st1.buf 0).length)
        from rfl, hout, List.nil_append, hb0,
        show nFingers cfgSixIntro = 6 from rfl,
        interleaveFrames_getD _ _ _ _ (by norm_num)]
    rw [show (12002 : ℕ) % 6 = 2 by norm_num, show (12002 : ℕ) / 6 = 2000 by norm_num, hb2]
    rw [List.getD_append _ _ _ _
          (by simp only [List.length_append, List.length_replicate]; norm_num),
        List.getD_append _ _ _ _
          (by simp only [List.length_append, List.length_replicate]; norm_num),
        List.getD_append _ _ _ _
          (by simp only [List.length_append, List.length_replicate]; norm_num),
        List.getD_append_right _ _ _ _
          (by simp only [List.length_append, List.length_replicate]; norm_num)]
    rw [List.getD_eq_getElem _ _
          (by simp only [List.length_append, List.length_replicate]; norm_num)]
    simp only [List.getElem_replicate]
    decide

/-- C3 counterexample: in the valid 6-channel configuration with a
1-second intro, the produced stream holds the value 1 at sample position
12002, which is a channel-2 (front centre) position -- so channel 2 is
not all-zero when introSeconds > 0. -/
theorem c3_intro_breaks_silent_channels :
    ValidConfig cfgSixIntro ∧ cfgSixIntro.sixChan = true ∧ 0 < cfgSixIntro.intro ∧
    (12002 : ℕ) % 6 = 2 ∧
    12002 < ((runProgram cfgSixIntro sin0 sin1 u0).out).length ∧
    ((runProgram cfgSixIntro sin0 sin1 u0).out).getD 12002 0 = 1 := by
  obtain ⟨hlen, hval⟩ := makeIntro_cfgSixIntro
  obtain ⟨r, hr⟩ := makePhrasesAux_out_extend cfgSixIntro u0 (toneTable cfgSixIntro sin0)
    4322 0 (makeIntro cfgSixIntro sin1 initS)
  have hout : (runProgram cfgSixIntro sin0 sin1 u0).out =
      (makeIntro cfgSixIntro sin1 initS).out ++ r := hr
  refine ⟨by norm_num [ValidConfig, cfgSixIntro], rfl, by norm_num [cfgSixIntro], rfl, ?_, ?_⟩
  · rw [hout, List.length_append, hlen]
    omega
  · rw [hout, List.getD_append _ _ _ _ (by rw [hlen]; omega)]
    exact hval

end Tass
